import Mathlib

/-!
Shallow embedding of `src/proposal.rs` (vostok-dao): the proposal lifecycle
state machine of a single-proposal governance contract — action conversion,
creation validation, vote accounting and one-shot execution.

Modelling conventions:
* `AccountId` is a Rust `String`; `ValidAccountId` is a string together with a
  proof that it satisfies the ambient validity predicate `P` (the near-sdk
  syntactic check, an external collaborator, is kept abstract as a parameter).
* `u16`/`u32`/`u64`/`u128` values are `Nat`s; where a claim depends on the
  width, the bound is an explicit hypothesis or an explicit check.
* Ambient context (`env::block_timestamp() / FROM_NANO`, the caller account)
  is passed as explicit arguments, per the injection described in the spec.
* A Rust `assert!` failure (panic) aborts the transaction with no state
  committed; a panicking call is modelled as an `Except.error` carrying the
  failed condition, and the caller's state is unchanged (no new state is
  produced on the error path).
-/

namespace VostokDao

abbrev AccountId := String

/-- Modelled from the spec: the overflow behavior of Rust `+` / `+=` is fixed
by the crate's release profile (`Cargo.toml`, which is not under `src/`).
Following the spec's §4.2 direction that overflow of the 64-bit sum is a
creation failure, and the standard near-sdk release profile
(`overflow-checks = true`), an overflowing addition panics, aborting the
operation with no state change; such an aborted call is modelled as an
`overflow` error. `U32SIZE` and `U64SIZE` bound the 32-bit tallies and the
64-bit timestamps. -/
def U32SIZE : Nat := 2 ^ 32

def U64SIZE : Nat := 2 ^ 64

/-- `Voter { account: AccountId, power: u16 }` from the source.  The doc
comment in the source says power must be in `[1...10000]`, but no code in
`proposal.rs` checks this. -/
structure Voter where
  account : AccountId
  power : Nat

/-- Internal Action representation (`ActionInt` in the source); `amount` is a
`u128` `Balance`. -/
inductive ActionInt where
  | transfer (dest : AccountId) (amount : Nat)
  | delete (dest : AccountId)
deriving DecidableEq

/-- The destination account of an internal action. -/
def ActionInt.dest : ActionInt → AccountId
  | .transfer d _ => d
  | .delete d => d

/-- External, JSON-facing `Action`; its `dest` is a `ValidAccountId`, i.e. a
string that satisfies the ambient validity predicate `P`. -/
inductive Action (P : AccountId → Bool) where
  | transfer (dest : {s : AccountId // P s = true}) (amount : Nat)
  | delete (dest : {s : AccountId // P s = true})

/-- `Action::to_aint`: drop to the internal representation (identity on the
underlying string and amount; no failure path). -/
def Action.to_aint {P : AccountId → Bool} : Action P → ActionInt
  | .transfer d a => .transfer d.val a
  | .delete d => .delete d.val

/-- `impl Into<Action> for ActionInt`: re-validate the stored account id
(`dest.try_into().unwrap()`).  The `unwrap` panics when the identity fails
the validity predicate, modelled as `none`. -/
def ActionInt.toAction (P : AccountId → Bool) : ActionInt → Option (Action P)
  | .transfer d a => if h : P d = true then some (.transfer ⟨d, h⟩ a) else none
  | .delete d => if h : P d = true then some (.delete ⟨d, h⟩) else none

/-- The `Proposal` struct from the source.  `voters : HashSet<AccountId>` is
modelled as a `Finset` — insertion order is irrelevant and membership is the
only query the code makes. -/
structure Proposal where
  proposer : AccountId
  description : String
  action : ActionInt
  voters : Finset AccountId
  voting_start : Nat
  voting_end : Nat
  votes_for : Nat
  votes_against : Nat
  execute_before : Nat
  executed : Bool

/-- Failure conditions of `Proposal::vote` (the `assert!` messages), plus the
arithmetic-overflow panic of the tally addition. -/
inductive VoteError where
  | votingNotActive
  | alreadyVoted
  | overflow
deriving DecidableEq

/-- Failure conditions of `Proposal::execute`; numeric payloads mirror the
values the panic messages report. -/
inductive ExecError where
  | outsideWindow
  | notEnoughSupport (got required : Nat)
  | didNotPass (votesFor votesAgainst : Nat)
  | alreadyExecuted
deriving DecidableEq

/-- The effect request `execute` dispatches: `Promise::new(dest).transfer(amount)`
or `Promise::new(env::current_account_id()).delete_account(dest)`. -/
inductive Effect where
  | transfer (dest : AccountId) (amount : Nat)
  | deleteAccount (actor beneficiary : AccountId)
deriving DecidableEq

/-- `Proposal::vote(&mut self, voter, vote_yes)` with the ambient time `t`
(seconds) passed explicitly.  Checks, in source order: the voting window
(`voting_start <= t && voting_end >= t`), then set insertion as the duplicate
gate, then the checked 32-bit tally addition. -/
def Proposal.vote (p : Proposal) (voter : Voter) (vote_yes : Bool) (t : Nat) :
    Except VoteError Proposal :=
  if p.voting_start ≤ t ∧ t ≤ p.voting_end then
    if voter.account ∈ p.voters then .error .alreadyVoted
    else if vote_yes then
      if p.votes_for + voter.power < U32SIZE then
        .ok { p with voters := insert voter.account p.voters,
                     votes_for := p.votes_for + voter.power }
      else .error .overflow
    else
      if p.votes_against + voter.power < U32SIZE then
        .ok { p with voters := insert voter.account p.voters,
                     votes_against := p.votes_against + voter.power }
      else .error .overflow
  else .error .votingNotActive

/-- `Proposal::execute(&mut self, min_support)` with ambient time `t` and the
contract's own account id `curr` passed explicitly.  Checks, in source order:
execution window, quorum, strict majority, not-yet-executed; on success the
`executed` flag flips and the effect request for the action is produced. -/
def Proposal.execute (p : Proposal) (min_support t : Nat) (curr : AccountId) :
    Except ExecError (Proposal × Effect) :=
  if p.voting_end < t ∧ t ≤ p.execute_before then
    if min_support ≤ p.votes_for then
      if p.votes_against < p.votes_for then
        if p.executed then .error .alreadyExecuted
        else
          .ok ({ p with executed := true },
            match p.action with
            | .transfer dest amount => .transfer dest amount
            | .delete dest => .deleteAccount curr dest)
      else .error (.didNotPass p.votes_for p.votes_against)
    else .error (.notEnoughSupport p.votes_for min_support)
  else .error .outsideWindow

/-- `NewProposal`: the creation input. -/
structure NewProposal (P : AccountId → Bool) where
  action : Action P
  description : String
  voting_start : Nat
  voting_duration : Nat
  execute_before : Nat

/-- Failure conditions of `NewProposal::into_proposal`. -/
inductive CreateError where
  | votingStartNotFuture (t : Nat)
  | badDuration (minD maxD : Nat)
  | overflowVotingEnd
  | executeBeforeTooEarly
deriving DecidableEq

/-- `NewProposal::into_proposal(&self, min_duration, max_duration)` with the
ambient time `t` and the caller (`env::predecessor_account_id()`) passed
explicitly.  Checks, in source order: `voting_start > t`, the duration policy
bounds, the (checked, see `U32SIZE`) 64-bit sum `voting_end`, and
`execute_before > voting_end`. -/
def NewProposal.into_proposal {P : AccountId → Bool} (np : NewProposal P)
    (min_duration max_duration : Nat) (t : Nat) (caller : AccountId) :
    Except CreateError Proposal :=
  if t < np.voting_start then
    if min_duration ≤ np.voting_duration ∧ np.voting_duration ≤ max_duration then
      if np.voting_start + np.voting_duration < U64SIZE then
        if np.voting_start + np.voting_duration < np.execute_before then
          .ok { proposer := caller
                description := np.description
                action := np.action.to_aint
                voters := ∅
                voting_start := np.voting_start
                voting_end := np.voting_start + np.voting_duration
                votes_for := 0
                votes_against := 0
                execute_before := np.execute_before
                executed := false }
        else .error .executeBeforeTooEarly
      else .error .overflowVotingEnd
    else .error (.badDuration min_duration max_duration)
  else .error (.votingStartNotFuture t)

/-- `ProposalOut`: the JSON-facing read view.  Note that the source struct has
no `proposer` (and no `voters`) field. -/
structure ProposalOut (P : AccountId → Bool) where
  action : Action P
  description : String
  voting_start : Nat
  voting_end : Nat
  votes_for : Nat
  votes_against : Nat
  execute_before : Nat
  executed : Bool

/-- `impl From<Proposal> for ProposalOut`: copy the scalar fields present in
`ProposalOut` and convert the action outward (whose `unwrap` is the only
failure path, modelled as `none`). -/
def Proposal.toOut (P : AccountId → Bool) (p : Proposal) : Option (ProposalOut P) :=
  match ActionInt.toAction P p.action with
  | some a =>
      some { action := a
             description := p.description
             voting_start := p.voting_start
             voting_end := p.voting_end
             votes_for := p.votes_for
             votes_against := p.votes_against
             execute_before := p.execute_before
             executed := p.executed }
  | none => none

/-- `Except` success as a Bool, to state success/failure without binders. -/
def okB {ε α : Type} : Except ε α → Bool
  | .ok _ => true
  | .error _ => false

/-- One vote request: the voter, the choice, and the ambient time of the call. -/
structure VoteCall where
  voter : Voter
  vote_yes : Bool
  t : Nat

/-- Run a sequence of vote calls against a proposal, collecting the accepted
calls in order; a rejected (panicking) call leaves the state unchanged. -/
def runVotesAcc : Proposal → List VoteCall → Proposal × List VoteCall
  | p, [] => (p, [])
  | p, c :: cs =>
    match Proposal.vote p c.voter c.vote_yes c.t with
    | .ok p' => ((runVotesAcc p' cs).1, c :: (runVotesAcc p' cs).2)
    | .error _ => runVotesAcc p cs

/-- Sum of the powers of the yes-votes in a list of calls. -/
def sumYes (l : List VoteCall) : Nat :=
  ((l.filter fun c => c.vote_yes).map fun c => c.voter.power).sum

/-- Sum of the powers of the no-votes in a list of calls. -/
def sumNo (l : List VoteCall) : Nat :=
  ((l.filter fun c => !c.vote_yes).map fun c => c.voter.power).sum

/-! ### Characterization of `vote` -/

lemma vote_ok_elim {p : Proposal} {v : Voter} {b : Bool} {t : Nat} {q : Proposal}
    (h : p.vote v b t = .ok q) :
    (p.voting_start ≤ t ∧ t ≤ p.voting_end) ∧ v.account ∉ p.voters ∧
      (if b then p.votes_for else p.votes_against) + v.power < U32SIZE ∧
      q.voters = insert v.account p.voters ∧
      q.votes_for = p.votes_for + (if b then v.power else 0) ∧
      q.votes_against = p.votes_against + (if b then 0 else v.power) ∧
      q.proposer = p.proposer ∧ q.description = p.description ∧ q.action = p.action ∧
      q.voting_start = p.voting_start ∧ q.voting_end = p.voting_end ∧
      q.execute_before = p.execute_before ∧ q.executed = p.executed := by
  unfold Proposal.vote at h
  split at h
  case isFalse => cases h
  case isTrue hw =>
    split at h
    case isTrue hm => cases h
    case isFalse hm =>
      split at h
      case isTrue hb =>
        split at h
        case isTrue hfit => cases h; simp_all
        case isFalse => cases h
      case isFalse hb =>
        split at h
        case isTrue hfit => cases h; simp_all
        case isFalse => cases h

lemma vote_not_active {p : Proposal} {v : Voter} {b : Bool} {t : Nat}
    (h : ¬(p.voting_start ≤ t ∧ t ≤ p.voting_end)) :
    p.vote v b t = .error .votingNotActive := by
  unfold Proposal.vote
  rw [if_neg h]

lemma vote_duplicate {p : Proposal} {v : Voter} {b : Bool} {t : Nat}
    (hw : p.voting_start ≤ t ∧ t ≤ p.voting_end) (hm : v.account ∈ p.voters) :
    p.vote v b t = .error .alreadyVoted := by
  unfold Proposal.vote
  rw [if_pos hw, if_pos hm]

lemma vote_ok_intro {p : Proposal} {v : Voter} {b : Bool} {t : Nat}
    (hw : p.voting_start ≤ t ∧ t ≤ p.voting_end) (hm : v.account ∉ p.voters)
    (hfit : (if b then p.votes_for else p.votes_against) + v.power < U32SIZE) :
    p.vote v b t =
      .ok { p with voters := insert v.account p.voters,
                   votes_for := p.votes_for + (if b then v.power else 0),
                   votes_against := p.votes_against + (if b then 0 else v.power) } := by
  unfold Proposal.vote
  rw [if_pos hw, if_neg hm]
  cases b
  · simp only [Bool.false_eq_true, if_false, if_neg]
    rw [if_pos (by simpa using hfit)]
    simp
  · simp only [if_pos]
    rw [if_pos (by simpa using hfit)]
    simp

/-! ### Characterization of `execute` -/

/-- The effect request `execute` dispatches for a given action. -/
def effectOf (a : ActionInt) (curr : AccountId) : Effect :=
  match a with
  | .transfer dest amount => .transfer dest amount
  | .delete dest => .deleteAccount curr dest

lemma execute_outside {p : Proposal} {ms t : Nat} {curr : AccountId}
    (h : ¬(p.voting_end < t ∧ t ≤ p.execute_before)) :
    p.execute ms t curr = .error .outsideWindow := by
  unfold Proposal.execute
  rw [if_neg h]

lemma execute_no_quorum {p : Proposal} {ms t : Nat} {curr : AccountId}
    (hw : p.voting_end < t ∧ t ≤ p.execute_before) (hq : p.votes_for < ms) :
    p.execute ms t curr = .error (.notEnoughSupport p.votes_for ms) := by
  unfold Proposal.execute
  rw [if_pos hw, if_neg (by omega)]

lemma execute_no_majority {p : Proposal} {ms t : Nat} {curr : AccountId}
    (hw : p.voting_end < t ∧ t ≤ p.execute_before) (hq : ms ≤ p.votes_for)
    (hm : p.votes_for ≤ p.votes_against) :
    p.execute ms t curr = .error (.didNotPass p.votes_for p.votes_against) := by
  unfold Proposal.execute
  rw [if_pos hw, if_pos hq, if_neg (by omega)]

lemma execute_already {p : Proposal} {ms t : Nat} {curr : AccountId}
    (hw : p.voting_end < t ∧ t ≤ p.execute_before) (hq : ms ≤ p.votes_for)
    (hm : p.votes_against < p.votes_for) (he : p.executed = true) :
    p.execute ms t curr = .error .alreadyExecuted := by
  unfold Proposal.execute
  rw [if_pos hw, if_pos hq, if_pos hm, if_pos he]

lemma execute_ok_intro {p : Proposal} {ms t : Nat} {curr : AccountId}
    (hw : p.voting_end < t ∧ t ≤ p.execute_before) (hq : ms ≤ p.votes_for)
    (hm : p.votes_against < p.votes_for) (he : p.executed = false) :
    p.execute ms t curr = .ok ({ p with executed := true }, effectOf p.action curr) := by
  unfold Proposal.execute
  rw [if_pos hw, if_pos hq, if_pos hm, if_neg (by simp [he])]
  rfl

lemma execute_ok_elim {p : Proposal} {ms t : Nat} {curr : AccountId}
    {q : Proposal} {eff : Effect} (h : p.execute ms t curr = .ok (q, eff)) :
    (p.voting_end < t ∧ t ≤ p.execute_before) ∧ ms ≤ p.votes_for ∧
      p.votes_against < p.votes_for ∧ p.executed = false ∧
      q = { p with executed := true } ∧ eff = effectOf p.action curr := by
  unfold Proposal.execute at h
  split at h
  case isFalse => cases h
  case isTrue hw =>
    split at h
    case isFalse => cases h
    case isTrue hq =>
      split at h
      case isFalse => cases h
      case isTrue hm =>
        split at h
        case isTrue => cases h
        case isFalse he =>
          refine ⟨hw, hq, hm, by simpa using he, ?_⟩
          have h' := h
          rw [show (match p.action with
              | .transfer dest amount => Effect.transfer dest amount
              | .delete dest => Effect.deleteAccount curr dest) = effectOf p.action curr
            from rfl] at h'
          cases h'
          exact ⟨rfl, rfl⟩

lemma execute_error_of_bad_tally {p : Proposal} {ms t : Nat} {curr : AccountId}
    (h : p.votes_for < ms ∨ p.votes_for ≤ p.votes_against) :
    okB (p.execute ms t curr) = false := by
  by_cases hw : p.voting_end < t ∧ t ≤ p.execute_before
  · rcases h with h | h
    · rw [execute_no_quorum hw h]; rfl
    · by_cases hq : ms ≤ p.votes_for
      · rw [execute_no_majority hw hq h]; rfl
      · rw [execute_no_quorum hw (by omega)]; rfl
  · rw [execute_outside hw]; rfl

/-! ### Concrete states used by witnesses and counterexamples -/

/-- A proposal in its execution window with a passing tally (cf. spec
Scenario B/C: two yes-votes of power 6000 and 5000). -/
def pExec : Proposal :=
  { proposer := "alice"
    description := "d"
    action := .transfer "bob" 10
    voters := {"v1", "v2"}
    voting_start := 100
    voting_end := 300
    votes_for := 11000
    votes_against := 0
    execute_before := 400
    executed := false }

/-- `pExec` after a successful execution. -/
def pDone : Proposal := { pExec with executed := true }

/-! ### Claim theorems -/

/-- Claim C4: an `execute` call at time `t` passes its time check iff
`voting_end < t ≤ execute_before`; outside that window it fails with the
outside-execution-window condition regardless of tally, threshold or the
executed flag. -/
theorem claim_c4 (p : Proposal) (t ms : Nat) (curr : AccountId) :
    p.execute ms t curr = .error .outsideWindow ↔
      ¬(p.voting_end < t ∧ t ≤ p.execute_before) := by
  constructor
  · intro h hw
    unfold Proposal.execute at h
    rw [if_pos hw] at h
    split at h
    · split at h
      · split at h <;> simp_all
      · simp_all
    · simp_all
  · exact execute_outside

/-- Claim C5: with the window check passed, `execute(min_support)` fails with
the insufficient-quorum condition (reporting achieved vs required support)
whenever `votes_for < min_support`, and otherwise with the did-not-pass
condition (reporting both tallies) whenever `votes_for <= votes_against`
(a tie fails); whenever either condition holds no effect is dispatched. -/
theorem claim_c5 (p : Proposal) (t ms : Nat) (curr : AccountId) :
    (p.voting_end < t → t ≤ p.execute_before → p.votes_for < ms →
        p.execute ms t curr = .error (.notEnoughSupport p.votes_for ms))
      ∧ (p.voting_end < t → t ≤ p.execute_before → ms ≤ p.votes_for →
          p.votes_for ≤ p.votes_against →
          p.execute ms t curr = .error (.didNotPass p.votes_for p.votes_against))
      ∧ ((p.votes_for < ms ∨ p.votes_for ≤ p.votes_against) →
          okB (p.execute ms t curr) = false) :=
  ⟨fun h1 h2 hq => execute_no_quorum ⟨h1, h2⟩ hq,
   fun h1 h2 hq hm => execute_no_majority ⟨h1, h2⟩ hq hm,
   execute_error_of_bad_tally⟩

/-- Witness for C5 at spec Scenario E: `execute(min_support = 12000)` inside
the window with `votes_for = 11000` fails, reporting 11000 vs 12000. -/
theorem claim_c5_witness :
    Proposal.execute pExec 12000 350 "dao" = .error (.notEnoughSupport 11000 12000) :=
  (claim_c5 pExec 350 12000 "dao").1 (by decide) (by decide) (by decide)

/-- Claim C1: a successful `execute` sets the `executed` flag; once the flag
is true every `execute` call fails (with the already-executed condition when
the window, quorum and majority preconditions hold), and `vote` never changes
the flag — so `execute` succeeds at most once per proposal. -/
theorem claim_c1 (p : Proposal) (t ms : Nat) (curr : AccountId) :
    (∀ q eff, p.execute ms t curr = .ok (q, eff) → q.executed = true)
      ∧ (p.executed = true → okB (p.execute ms t curr) = false)
      ∧ (p.executed = true → p.voting_end < t → t ≤ p.execute_before →
          ms ≤ p.votes_for → p.votes_against < p.votes_for →
          p.execute ms t curr = .error .alreadyExecuted)
      ∧ (∀ v b q, p.vote v b t = .ok q → q.executed = p.executed) := by
  refine ⟨?_, ?_, ?_, ?_⟩
  · intro q eff h
    rw [(execute_ok_elim h).2.2.2.2.1]
  · intro he
    by_cases hw : p.voting_end < t ∧ t ≤ p.execute_before
    · by_cases hq : ms ≤ p.votes_for
      · by_cases hm : p.votes_against < p.votes_for
        · rw [execute_already hw hq hm he]; rfl
        · rw [execute_no_majority hw hq (by omega)]; rfl
      · rw [execute_no_quorum hw (by omega)]; rfl
    · rw [execute_outside hw]; rfl
  · intro he h1 h2 hq hm
    exact execute_already ⟨h1, h2⟩ hq hm he
  · intro v b q h
    exact (vote_ok_elim h).2.2.2.2.2.2.2.2.2.2.2.2

/-- Witness for C1 (spec Scenario C, second call): on an already-executed
proposal every further `execute` fails, here with the already-executed
condition. -/
theorem claim_c1_witness :
    okB (Proposal.execute pDone 10000 350 "dao") = false ∧
      Proposal.execute pDone 10000 350 "dao" = .error .alreadyExecuted :=
  ⟨(claim_c1 pDone 350 10000 "dao").2.1 rfl,
   (claim_c1 pDone 350 10000 "dao").2.2.1 rfl (by decide) (by decide) (by decide)
     (by decide)⟩

/-! ### Characterization of `into_proposal` -/

/-- The proposal produced by a successful `into_proposal` call. -/
def newProposalResult {P : AccountId → Bool} (np : NewProposal P)
    (caller : AccountId) : Proposal :=
  { proposer := caller
    description := np.description
    action := np.action.to_aint
    voters := ∅
    voting_start := np.voting_start
    voting_end := np.voting_start + np.voting_duration
    votes_for := 0
    votes_against := 0
    execute_before := np.execute_before
    executed := false }

lemma into_proposal_ok_intro {P : AccountId → Bool} {np : NewProposal P}
    {minD maxD t : Nat} {caller : AccountId}
    (h1 : t < np.voting_start)
    (h2 : minD ≤ np.voting_duration ∧ np.voting_duration ≤ maxD)
    (h3 : np.voting_start + np.voting_duration < U64SIZE)
    (h4 : np.voting_start + np.voting_duration < np.execute_before) :
    np.into_proposal minD maxD t caller = .ok (newProposalResult np caller) := by
  unfold NewProposal.into_proposal
  rw [if_pos h1, if_pos h2, if_pos h3, if_pos h4]
  rfl

lemma into_proposal_ok_elim {P : AccountId → Bool} {np : NewProposal P}
    {minD maxD t : Nat} {caller : AccountId} {p : Proposal}
    (h : np.into_proposal minD maxD t caller = .ok p) :
    t < np.voting_start ∧ minD ≤ np.voting_duration ∧ np.voting_duration ≤ maxD ∧
      np.voting_start + np.voting_duration < U64SIZE ∧
      np.voting_start + np.voting_duration < np.execute_before ∧
      p = newProposalResult np caller := by
  unfold NewProposal.into_proposal at h
  split at h
  case isFalse => cases h
  case isTrue h1 =>
    split at h
    case isFalse => cases h
    case isTrue h2 =>
      split at h
      case isFalse => cases h
      case isTrue h3 =>
        split at h
        case isFalse => cases h
        case isTrue h4 =>
          cases h
          exact ⟨h1, h2.1, h2.2, h3, h4, rfl⟩

/-- Claim C6: creation at time `t0` succeeds iff `voting_start > t0`, the
duration lies within the policy bounds, and
`execute_before > voting_start + voting_duration`; a successful creation has
the caller as proposer, `voting_end = voting_start + voting_duration`, zero
tallies, an empty voter set and `executed = false`. -/
theorem claim_c6 {P : AccountId → Bool} (np : NewProposal P) (minD maxD t0 : Nat)
    (caller : AccountId) (heb : np.execute_before < U64SIZE) :
    (okB (np.into_proposal minD maxD t0 caller) = true ↔
        (t0 < np.voting_start ∧ minD ≤ np.voting_duration ∧
          np.voting_duration ≤ maxD ∧
          np.voting_start + np.voting_duration < np.execute_before))
      ∧ ∀ p, np.into_proposal minD maxD t0 caller = .ok p →
          p.proposer = caller ∧ p.description = np.description ∧
          p.action = np.action.to_aint ∧ p.voters = ∅ ∧
          p.voting_start = np.voting_start ∧
          p.voting_end = np.voting_start + np.voting_duration ∧
          p.votes_for = 0 ∧ p.votes_against = 0 ∧
          p.execute_before = np.execute_before ∧ p.executed = false := by
  constructor
  · constructor
    · intro h
      cases hres : np.into_proposal minD maxD t0 caller with
      | error e => rw [hres] at h; simp [okB] at h
      | ok p =>
        have hc := into_proposal_ok_elim hres
        exact ⟨hc.1, hc.2.1, hc.2.2.1, hc.2.2.2.2.1⟩
    · rintro ⟨h1, h2, h3, h4⟩
      rw [into_proposal_ok_intro h1 ⟨h2, h3⟩ (by omega) h4]
      rfl
  · intro p h
    rw [(into_proposal_ok_elim h).2.2.2.2.2]
    exact ⟨rfl, rfl, rfl, rfl, rfl, rfl, rfl, rfl, rfl, rfl⟩

/-- The trivial validity predicate, used for concrete instances. -/
def Ptriv : AccountId → Bool := fun _ => true

/-- Spec Scenario A creation input: `voting_start = 100`, `duration = 200`,
`execute_before = 400`, submitted at `t0 = 0`. -/
def npA : NewProposal Ptriv :=
  { action := .delete ⟨"bob", rfl⟩
    description := "d"
    voting_start := 100
    voting_duration := 200
    execute_before := 400 }

/-- The proposal Scenario A produces. -/
def pResA : Proposal :=
  { proposer := "alice"
    description := "d"
    action := .delete "bob"
    voters := ∅
    voting_start := 100
    voting_end := 300
    votes_for := 0
    votes_against := 0
    execute_before := 400
    executed := false }

/-- Witness for C6 at spec Scenario A: the creation succeeds and yields
`voting_end = 300`. -/
theorem claim_c6_witness :
    okB (NewProposal.into_proposal npA 100 1000 0 "alice") = true ∧
      NewProposal.into_proposal npA 100 1000 0 "alice" = .ok pResA ∧
      pResA.voting_end = 300 :=
  ⟨(claim_c6 npA 100 1000 0 "alice" (by decide)).1.mpr (by decide), rfl, rfl⟩

/-- Claim C8: when the 64-bit sum `voting_start + voting_duration` overflows,
creation fails, and no proposal with a wrapped-around `voting_end` is ever
produced (every successful creation has `voting_end` equal to the exact sum,
which fits in 64 bits). -/
theorem claim_c8 {P : AccountId → Bool} (np : NewProposal P) (minD maxD t0 : Nat)
    (caller : AccountId) :
    (U64SIZE ≤ np.voting_start + np.voting_duration →
        okB (np.into_proposal minD maxD t0 caller) = false)
      ∧ ∀ p, np.into_proposal minD maxD t0 caller = .ok p →
          p.voting_end = np.voting_start + np.voting_duration ∧
          p.voting_end < U64SIZE := by
  constructor
  · intro hov
    cases hres : np.into_proposal minD maxD t0 caller with
    | error e => rfl
    | ok p =>
      exact absurd (into_proposal_ok_elim hres).2.2.2.1 (by omega)
  · intro p h
    have hc := into_proposal_ok_elim h
    rw [hc.2.2.2.2.2]
    exact ⟨rfl, hc.2.2.2.1⟩

/-- A creation input whose `voting_start + voting_duration` overflows `u64`. -/
def npOv : NewProposal Ptriv :=
  { action := .delete ⟨"x", rfl⟩
    description := ""
    voting_start := U64SIZE - 1
    voting_duration := 2
    execute_before := 5 }

/-- Witness for C8: the overflowing creation input is rejected. -/
theorem claim_c8_witness :
    okB (NewProposal.into_proposal npOv 1 10 0 "a") = false :=
  (claim_c8 npOv 1 10 0 "a").1 (by decide)

/-- Claim C3 (amended): a `vote` call at time `t` succeeds iff
`voting_start <= t <= voting_end`, the identity is not yet in the voter set,
and the updated tally still fits in 32 bits; outside the window it fails with
the voting-not-active condition, and on a repeated identity (inside the
window) with the duplicate-vote condition.  A failing call produces no new
state (the panic aborts the transaction). -/
theorem claim_c3 (p : Proposal) (v : Voter) (b : Bool) (t : Nat) :
    (okB (p.vote v b t) = true ↔
        ((p.voting_start ≤ t ∧ t ≤ p.voting_end) ∧ v.account ∉ p.voters ∧
          (if b then p.votes_for else p.votes_against) + v.power < U32SIZE))
      ∧ (¬(p.voting_start ≤ t ∧ t ≤ p.voting_end) →
          p.vote v b t = .error .votingNotActive)
      ∧ ((p.voting_start ≤ t ∧ t ≤ p.voting_end) → v.account ∈ p.voters →
          p.vote v b t = .error .alreadyVoted) := by
  refine ⟨⟨?_, ?_⟩, fun h => vote_not_active h, fun hw hm => vote_duplicate hw hm⟩
  · intro h
    cases hres : p.vote v b t with
    | error e => rw [hres] at h; simp [okB] at h
    | ok q =>
      have hc := vote_ok_elim hres
      exact ⟨hc.1, hc.2.1, hc.2.2.1⟩
  · rintro ⟨hw, hm, hfit⟩
    rw [vote_ok_intro hw hm hfit]
    rfl

/-- Witness for C3: a vote before the window opens fails with the
voting-not-active condition. -/
theorem claim_c3_witness :
    Proposal.vote pResA ⟨"z", 5⟩ true 50 = .error .votingNotActive :=
  (claim_c3 pResA ⟨"z", 5⟩ true 50).2.1 (by decide)

/-- A proposal whose yes-tally is at the `u32` maximum; reachable through
(very many) accepted votes, since powers up to 65535 are accepted. -/
def pNearFull : Proposal :=
  { proposer := "p"
    description := ""
    action := .delete "d"
    voters := {"v1"}
    voting_start := 0
    voting_end := 10
    votes_for := U32SIZE - 1
    votes_against := 0
    execute_before := 20
    executed := false }

/-- Counterexample to C3 as stated: a vote inside the window by a fresh
identity does NOT succeed when the 32-bit tally addition overflows — it
aborts with the overflow panic. -/
theorem claim_c3_counterexample :
    (pNearFull.voting_start ≤ 5 ∧ 5 ≤ pNearFull.voting_end) ∧
      "w" ∉ pNearFull.voters ∧
      Proposal.vote pNearFull ⟨"w", 1⟩ true 5 = .error .overflow := by
  refine ⟨by decide, by decide, ?_⟩
  unfold Proposal.vote
  rw [if_pos (by decide), if_neg (by decide), if_pos rfl, if_neg (by decide)]

/-- Claim C10 (amended): `vote` performs no range check on `voter.power` —
inside the window, with a fresh identity, a vote with any `u16` power is
accepted provided only that the updated tally fits in 32 bits; in particular
a vote with `power = 0` always succeeds, inserts the identity into the voter
set, and leaves both tallies unchanged. -/
theorem claim_c10 (p : Proposal) (v : Voter) (b : Bool) (t : Nat)
    (hw : p.voting_start ≤ t ∧ t ≤ p.voting_end) (hfresh : v.account ∉ p.voters) :
    ((if b then p.votes_for else p.votes_against) + v.power < U32SIZE →
        okB (p.vote v b t) = true)
      ∧ (v.power = 0 → ∀ q, p.vote v b t = .ok q →
          q.voters = insert v.account p.voters ∧ q.votes_for = p.votes_for ∧
            q.votes_against = p.votes_against) := by
  constructor
  · intro hfit
    rw [vote_ok_intro hw hfresh hfit]
    rfl
  · intro hp0 q hok
    have hc := vote_ok_elim hok
    refine ⟨hc.2.2.2.1, ?_, ?_⟩
    · rw [hc.2.2.2.2.1]
      cases b <;> simp [hp0]
    · rw [hc.2.2.2.2.2.1]
      cases b <;> simp [hp0]

/-- The state produced by a zero-power yes-vote on `pResA`. -/
def pZeroRes : Proposal := { pResA with voters := insert "z" pResA.voters }

/-- Witness for C10: a zero-power vote (power outside `[1, 10000]`) succeeds,
inserts the identity, and changes neither tally. -/
theorem claim_c10_witness :
    okB (Proposal.vote pResA ⟨"z", 0⟩ true 150) = true ∧
      pZeroRes.voters = insert "z" pResA.voters ∧
      pZeroRes.votes_for = pResA.votes_for ∧
      pZeroRes.votes_against = pResA.votes_against :=
  ⟨(claim_c10 pResA ⟨"z", 0⟩ true 150 (by decide) (by decide)).1 (by decide),
   (claim_c10 pResA ⟨"z", 0⟩ true 150 (by decide) (by decide)).2 rfl pZeroRes rfl⟩

/-- A proposal whose yes-tally is within 60000 of the `u32` maximum. -/
def pNearFull2 : Proposal :=
  { proposer := "p2"
    description := ""
    action := .delete "e"
    voters := {"u1"}
    voting_start := 0
    voting_end := 10
    votes_for := U32SIZE - 30000
    votes_against := 0
    execute_before := 20
    executed := false }

/-- Counterexample to C10 as stated: a voter with power 60000 (outside
`[1, 10000]`), inside the window and with a fresh identity, is NOT accepted
when the 32-bit tally addition would overflow. -/
theorem claim_c10_counterexample :
    10000 < 60000 ∧
      (pNearFull2.voting_start ≤ 5 ∧ 5 ≤ pNearFull2.voting_end) ∧
      "z" ∉ pNearFull2.voters ∧
      Proposal.vote pNearFull2 ⟨"z", 60000⟩ true 5 = .error .overflow := by
  refine ⟨by decide, by decide, by decide, ?_⟩
  unfold Proposal.vote
  rw [if_pos (by decide), if_neg (by decide), if_pos rfl, if_neg (by decide)]

/-- Claim C7: converting an external `Action` to the internal representation
and back yields the original value, and the outward conversion fails only
when the stored identity fails re-validation. -/
theorem claim_c7 (P : AccountId → Bool) :
    (∀ a : Action P, ActionInt.toAction P a.to_aint = some a)
      ∧ (∀ ai : ActionInt, ActionInt.toAction P ai = none → P ai.dest = false) := by
  constructor
  · intro a
    cases a with
    | transfer d amt =>
      obtain ⟨s, hs⟩ := d
      simp [Action.to_aint, ActionInt.toAction, hs]
    | delete d =>
      obtain ⟨s, hs⟩ := d
      simp [Action.to_aint, ActionInt.toAction, hs]
  · intro ai h
    cases ai with
    | transfer d amt =>
      by_cases hP : P d = true
      · rw [ActionInt.toAction, dif_pos hP] at h
        cases h
      · exact Bool.eq_false_iff.mpr hP
    | delete d =>
      by_cases hP : P d = true
      · rw [ActionInt.toAction, dif_pos hP] at h
        cases h
      · exact Bool.eq_false_iff.mpr hP

/-- The validity predicate "the account id is nonempty". -/
def Pne : AccountId → Bool := fun s => !s.isEmpty

/-- Witness for C7: the outward conversion of an action whose stored identity
fails validation is the failure case, and the identity indeed fails the
predicate. -/
theorem claim_c7_witness :
    ActionInt.toAction Pne (ActionInt.delete "") = none ∧
      Pne (ActionInt.dest (ActionInt.delete "")) = false :=
  ⟨rfl, (claim_c7 Pne).2 (ActionInt.delete "") rfl⟩

/-- If outward conversion yields `a`, then `a` converts back to the original
internal action. -/
lemma toAction_to_aint {P : AccountId → Bool} {ai : ActionInt} {a : Action P}
    (h : ActionInt.toAction P ai = some a) : a.to_aint = ai := by
  cases ai with
  | transfer d amt =>
    by_cases hP : P d = true
    · rw [ActionInt.toAction, dif_pos hP] at h
      cases h
      rfl
    · rw [ActionInt.toAction, dif_neg hP] at h
      cases h
  | delete d =>
    by_cases hP : P d = true
    · rw [ActionInt.toAction, dif_pos hP] at h
      cases h
      rfl
    · rw [ActionInt.toAction, dif_neg hP] at h
      cases h

/-- Claim C9 (amended): the projection to `ProposalOut` copies `description`,
`voting_start`, `voting_end`, `votes_for`, `votes_against`, `execute_before`
and `executed` unchanged and converts the action back to its external form
without loss; the `proposer` (and the voter set) are NOT part of
`ProposalOut` and are dropped. -/
theorem claim_c9 {P : AccountId → Bool} (p : Proposal) (out : ProposalOut P)
    (h : p.toOut P = some out) :
    out.description = p.description ∧ out.voting_start = p.voting_start ∧
      out.voting_end = p.voting_end ∧ out.votes_for = p.votes_for ∧
      out.votes_against = p.votes_against ∧
      out.execute_before = p.execute_before ∧ out.executed = p.executed ∧
      out.action.to_aint = p.action := by
  unfold Proposal.toOut at h
  cases hact : ActionInt.toAction P p.action with
  | none => rw [hact] at h; cases h
  | some a =>
    rw [hact] at h
    cases h
    exact ⟨rfl, rfl, rfl, rfl, rfl, rfl, rfl, toAction_to_aint hact⟩

/-- `pResA` with a different proposer. -/
def pB9 : Proposal := { pResA with proposer := "bob" }

/-- Counterexample to C9 as stated: two proposals that differ in `proposer`
have the same `ProposalOut` projection — the projection does not copy
`proposer` (the source struct has no such field) and therefore loses
information. -/
theorem claim_c9_counterexample :
    pResA.proposer ≠ pB9.proposer ∧
      Proposal.toOut Ptriv pResA = Proposal.toOut Ptriv pB9 :=
  ⟨by decide, rfl⟩

/-- The projection of `pResA`. -/
def outA : ProposalOut Ptriv :=
  { action := .delete ⟨"bob", rfl⟩
    description := "d"
    voting_start := 100
    voting_end := 300
    votes_for := 0
    votes_against := 0
    execute_before := 400
    executed := false }

/-- Witness for C9: the projection of `pResA` copies its scalar fields and
its action converts back to the stored internal action. -/
theorem claim_c9_witness :
    outA.description = pResA.description ∧ outA.voting_end = pResA.voting_end ∧
      outA.action.to_aint = pResA.action :=
  ⟨(claim_c9 pResA outA rfl).1, (claim_c9 pResA outA rfl).2.2.1,
   (claim_c9 pResA outA rfl).2.2.2.2.2.2.2⟩

/-! ### Vote-sequence invariants (C2) -/

lemma sumYes_cons (c : VoteCall) (l : List VoteCall) :
    sumYes (c :: l) = (if c.vote_yes then c.voter.power else 0) + sumYes l := by
  cases hb : c.vote_yes <;> simp [sumYes, List.filter_cons, hb]

lemma sumNo_cons (c : VoteCall) (l : List VoteCall) :
    sumNo (c :: l) = (if c.vote_yes then 0 else c.voter.power) + sumNo l := by
  cases hb : c.vote_yes <;> simp [sumNo, List.filter_cons, hb]

lemma runVotesAcc_invariant (cs : List VoteCall) (p : Proposal) :
    ((runVotesAcc p cs).1.voters.card = p.voters.card + (runVotesAcc p cs).2.length)
      ∧ (runVotesAcc p cs).1.votes_for = p.votes_for + sumYes (runVotesAcc p cs).2
      ∧ (runVotesAcc p cs).1.votes_against
          = p.votes_against + sumNo (runVotesAcc p cs).2
      ∧ (∀ c ∈ (runVotesAcc p cs).2, c.voter.account ∉ p.voters)
      ∧ ((runVotesAcc p cs).2).Pairwise
          (fun a b => a.voter.account ≠ b.voter.account) := by
  induction cs generalizing p with
  | nil => simp [runVotesAcc, sumYes, sumNo]
  | cons c cs ih =>
    cases hv : Proposal.vote p c.voter c.vote_yes c.t with
    | error e =>
      simp only [runVotesAcc, hv]
      exact ih p
    | ok p' =>
      have hc := vote_ok_elim hv
      have hfresh : c.voter.account ∉ p.voters := hc.2.1
      have hins : p'.voters = insert c.voter.account p.voters := hc.2.2.2.1
      have hvf : p'.votes_for
          = p.votes_for + (if c.vote_yes then c.voter.power else 0) := hc.2.2.2.2.1
      have hva : p'.votes_against
          = p.votes_against + (if c.vote_yes then 0 else c.voter.power) :=
        hc.2.2.2.2.2.1
      have ihp := ih p'
      simp only [runVotesAcc, hv]
      refine ⟨?_, ?_, ?_, ?_, ?_⟩
      · have h1 := ihp.1
        rw [hins, Finset.card_insert_of_not_mem hfresh] at h1
        simp only [List.length_cons]
        omega
      · have h2 := ihp.2.1
        rw [hvf] at h2
        rw [sumYes_cons]
        omega
      · have h3 := ihp.2.2.1
        rw [hva] at h3
        rw [sumNo_cons]
        omega
      · intro d hd
        rcases List.mem_cons.mp hd with hd | hd
        · subst hd
          exact hfresh
        · have hne := ihp.2.2.2.1 d hd
          rw [hins] at hne
          intro hmem
          exact hne (Finset.mem_insert_of_mem hmem)
      · rw [List.pairwise_cons]
        constructor
        · intro d hd heq
          have hne := ihp.2.2.2.1 d hd
          rw [hins] at hne
          exact hne (heq ▸ Finset.mem_insert_self _ _)
        · exact ihp.2.2.2.2

lemma runVotesAcc_append (cs ds : List VoteCall) (p : Proposal) :
    (runVotesAcc p (cs ++ ds)).1 = (runVotesAcc (runVotesAcc p cs).1 ds).1 := by
  induction cs generalizing p with
  | nil => simp [runVotesAcc]
  | cons c cs ih =>
    cases hv : Proposal.vote p c.voter c.vote_yes c.t with
    | error e =>
      simp only [List.cons_append, runVotesAcc, hv]
      exact ih p
    | ok p' =>
      simp only [List.cons_append, runVotesAcc, hv]
      exact ih p'

lemma runVotesAcc_mono (cs : List VoteCall) (p : Proposal) :
    p.votes_for ≤ (runVotesAcc p cs).1.votes_for
      ∧ p.votes_against ≤ (runVotesAcc p cs).1.votes_against := by
  have h := runVotesAcc_invariant cs p
  exact ⟨h.2.1 ▸ Nat.le_add_right _ _, h.2.2.1 ▸ Nat.le_add_right _ _⟩

/-- Claim C2: starting from a freshly created proposal, each identity
contributes to the tally at most once (the accepted calls carry pairwise
distinct identities), the voter-set size equals the number of accepted vote
calls, the tallies equal the power sums over accepted votes partitioned by
choice, and the tallies are non-decreasing over the proposal's lifetime
(under further votes; a successful execution leaves them unchanged). -/
theorem claim_c2 (p0 : Proposal) (cs : List VoteCall)
    (hv : p0.voters = ∅) (hf : p0.votes_for = 0) (ha : p0.votes_against = 0) :
    ((runVotesAcc p0 cs).1.voters.card = (runVotesAcc p0 cs).2.length)
      ∧ (runVotesAcc p0 cs).1.votes_for = sumYes (runVotesAcc p0 cs).2
      ∧ (runVotesAcc p0 cs).1.votes_against = sumNo (runVotesAcc p0 cs).2
      ∧ ((runVotesAcc p0 cs).2).Pairwise
          (fun a b => a.voter.account ≠ b.voter.account)
      ∧ (∀ ds, (runVotesAcc p0 cs).1.votes_for
            ≤ (runVotesAcc p0 (cs ++ ds)).1.votes_for ∧
          (runVotesAcc p0 cs).1.votes_against
            ≤ (runVotesAcc p0 (cs ++ ds)).1.votes_against)
      ∧ (∀ q ms t curr q' eff, Proposal.execute q ms t curr = .ok (q', eff) →
          q'.votes_for = q.votes_for ∧ q'.votes_against = q.votes_against) := by
  have h := runVotesAcc_invariant cs p0
  refine ⟨?_, ?_, ?_, h.2.2.2.2, ?_, ?_⟩
  · rw [h.1, hv]
    simp
  · rw [h.2.1, hf, Nat.zero_add]
  · rw [h.2.2.1, ha, Nat.zero_add]
  · intro ds
    rw [runVotesAcc_append]
    exact runVotesAcc_mono ds (runVotesAcc p0 cs).1
  · intro q ms t curr q' eff hex
    rw [(execute_ok_elim hex).2.2.2.2.1]
    exact ⟨rfl, rfl⟩

/-- Spec Scenario B vote calls: powers 6000 and 5000 vote yes inside the
window, then the second identity tries to vote again. -/
def csB : List VoteCall :=
  [⟨⟨"v1", 6000⟩, true, 150⟩, ⟨⟨"v2", 5000⟩, true, 160⟩,
   ⟨⟨"v2", 4000⟩, true, 170⟩]

/-- Witness for C2 at spec Scenario B: two calls are accepted, the duplicate
is not; the voter-set size equals the accepted count and the yes-tally equals
the accepted power sum (11000). -/
theorem claim_c2_witness :
    ((runVotesAcc pResA csB).1.voters.card = (runVotesAcc pResA csB).2.length)
      ∧ (runVotesAcc pResA csB).1.votes_for = sumYes (runVotesAcc pResA csB).2
      ∧ (runVotesAcc pResA csB).1.votes_for = 11000
      ∧ (runVotesAcc pResA csB).2.length = 2 :=
  ⟨(claim_c2 pResA csB rfl rfl rfl).1, (claim_c2 pResA csB rfl rfl rfl).2.1,
   by decide, by decide⟩

end VostokDao
